import Mathlib

/-!
Verification development for the movie-mcp query translator
(src/movie-mcp.py).

The Python module builds MongoDB filter/aggregation expressions from
loosely-typed tool arguments and runs three read operations (find, count,
average) against a `movies` collection.  We shallowly embed:

  * Python values that can arrive as "list-like" arguments (`PyVal`),
  * the argument normalizer `_parse_stringified_list_arg`
    (parameterized by a `jsonLoads : String → Option PyVal` oracle that
    models the external `json.loads`; `none` models a raised
    `JSONDecodeError`),
  * the filter builder `_build_movie_query` (queries become the
    structured `MovieQuery` type, one component per dictionary key the
    Python code can create),
  * the MongoDB-side semantics needed to evaluate those filters on
    documents (`matchesQuery`), including the documented behaviour of
    `$regex` with the `i` option on the fragment of PCRE that the
    claims exercise (literal characters, `.`, and `^`/`$` anchors),
  * the `find_movies` tool (the store is a `List MovieDoc`; the
    outcome records the query and projection handed to the store plus
    the returned documents), and
  * the `get_average_rating` tool, parameterized by an
    `exec : AvgPipeline → Except String (List GroupRow)` store oracle,
    with `runAggregate` instantiating that oracle with the documented
    `$match`/`$group` semantics.  The pair returned by the model also
    logs every pipeline handed to the store, so "no store operation was
    executed" is expressible as an empty log.
-/

/-- Python values relevant to the loosely-typed list arguments: the
subset of Python objects that `json.loads` can produce, plus `none`
(Python `None`) and plain strings/lists as they arrive from the tool
framework. -/
inductive PyVal where
  | none : PyVal
  | bool : Bool → PyVal
  | int : Int → PyVal
  | float : ℚ → PyVal
  | str : String → PyVal
  | list : List PyVal → PyVal
  | dict : List (String × PyVal) → PyVal

/-- Python `x is None`. -/
def PyVal.isNone : PyVal → Bool
  | .none => true
  | _ => false

/-- Python `str(x)`.  Scalars follow Python's `str`; container reprs are
abbreviated (no claim inspects the string form of a nested container),
and float repr is modelled on rationals. -/
def pyStr : PyVal → String
  | .none => "None"
  | .bool true => "True"
  | .bool false => "False"
  | .int n => toString n
  | .float q => toString q
  | .str s => s
  | .list _ => "[...]"
  | .dict _ => "\x7b...\x7d"

/-- The whitespace set of Python's `str.strip` (ASCII part; the exotic
Unicode spaces are outside the modelled fragment). -/
def pyIsSpace (c : Char) : Bool := c ∈ [' ', '\t', '\n', '\r', '\x0b', '\x0c']

/-- Python truthiness of `arg.strip()` being empty: every character is
whitespace (including the empty string). -/
def pyStripIsEmpty (s : String) : Bool := s.toList.all pyIsSpace

/-- Python truthiness of an optional string (`if title:`): present and
non-empty. -/
def pyTruthyStr (s : Option String) : Bool := s.getD "" ≠ ""

/-- Python truthiness of an optional list (`if genres:`): present and
non-empty. -/
def pyTruthyList (l : Option (List String)) : Bool := !(l.getD []).isEmpty

/-- The list comprehension `[str(item) for item in xs if item is not None]`. -/
def strItems (xs : List PyVal) : List String :=
  (xs.filter (fun x => !x.isNone)).map pyStr

/-- The normalizer `_parse_stringified_list_arg` from src/movie-mcp.py.  `jsonLoads`
models the external `json.loads`; `jsonLoads s = none` models a raised
`JSONDecodeError`.  The function itself is total: every branch of the
Python code returns (the only exception it can see is the decode error,
which it catches). -/
def _parse_stringified_list_arg (jsonLoads : String → Option PyVal) :
    PyVal → Option (List String)
  | .none => none
  | .list xs => some (strItems xs)
  | .str s =>
    if pyStripIsEmpty s then none
    else
      match jsonLoads s with
      | some (.list xs) => some (strItems xs)
      | some _ => none
      | none => some [s]
  | _ => none

/-- Reflect a normalizer result back into a Python argument: `None`
for "no constraint", else a Python list of `str` values. -/
def normalizedToPyVal : Option (List String) → PyVal
  | none => .none
  | some xs => .list (xs.map .str)

/-- The constant `RATING_FIELD_MAP` from src/movie-mcp.py. -/
def RATING_FIELD_MAP : List (String × String) :=
  [("imdb", "imdb.rating"),
   ("metacritic", "metacritic"),
   ("tomatoes_viewer", "tomatoes.viewer.rating"),
   ("tomatoes_critic", "tomatoes.critic.rating"),
   ("imdb_votes", "imdb.votes"),
   ("tomatoes_viewer_num_reviews", "tomatoes.viewer.numReviews"),
   ("tomatoes_critic_num_reviews", "tomatoes.critic.numReviews")]

/-- Python `dict.get(k)` on an association list (insertion order,
first/only binding wins; our dicts keep keys unique). -/
def mapLookup (k : String) : List (String × String) → Option String
  | [] => none
  | (k', v) :: rest => if k' = k then some v else mapLookup k rest

/-- The constant `DEFAULT_PROJECTION_FIELDS` from src/movie-mcp.py. -/
def DEFAULT_PROJECTION_FIELDS : List String :=
  ["title", "year", "plot", "imdb.rating", "genres"]

/-- Python `d[k] = v` on a dict modelled as an insertion-ordered
association list: replace in place if the key exists, else append. -/
def dictInsert (k : String) (v : Int) : List (String × Int) → List (String × Int)
  | [] => [(k, v)]
  | (k', v') :: rest =>
    if k' = k then (k, v) :: rest else (k', v') :: dictInsert k v rest

/-- The dict comprehension `\x7bfield: v for field in fields\x7d`. -/
def dictOfKeys (fields : List String) (v : Int) : List (String × Int) :=
  fields.foldl (fun d f => dictInsert f v d) []

/-- Lookup in a projection dict (Python `d[k]` as a partial map). -/
def dictLookup (k : String) : List (String × Int) → Option Int
  | [] => none
  | (k', v) :: rest => if k' = k then some v else dictLookup k rest

/-- The projection-resolution block of `find_movies`
(src/movie-mcp.py lines 219-231): user-supplied fields if the argument
is truthy, else the default set; then `_id` is suppressed unless it is
listed in `projection_fields`. -/
def resolveProjection (projection_fields : Option (List String)) :
    List (String × Int) :=
  let base :=
    if pyTruthyList projection_fields then
      dictOfKeys (projection_fields.getD []) 1
    else
      dictOfKeys DEFAULT_PROJECTION_FIELDS 1
  if !base.isEmpty then
    if "_id" ∉ projection_fields.getD [] then dictInsert "_id" 0 base else base
  else base

/-- Characters with special meaning in PCRE (MongoDB's `$regex`
dialect).  A pattern containing none of these denotes a literal
substring search. -/
def regexMetaChars : List Char :=
  ['.', '*', '+', '?', '(', ')', '[', ']', '\x7b', '\x7d', '^', '$', '|', '\\']

/-- One single-character matcher of the modelled regex fragment. -/
inductive RAtom where
  | lit : Char → RAtom
  | dot : RAtom
deriving DecidableEq

/-- Parse a regex body consisting only of literal characters and `.`
into atoms; any other metacharacter is outside the modelled fragment. -/
def parseAtoms : List Char → Option (List RAtom)
  | [] => some []
  | c :: cs =>
    if c = '.' then (parseAtoms cs).map (fun as => RAtom.dot :: as)
    else if c ∈ regexMetaChars then none
    else (parseAtoms cs).map (fun as => RAtom.lit c :: as)

/-- The modelled regex fragment: an optional `^` anchor, a sequence of
single-character matchers, an optional `$` anchor. -/
structure SimpleRegex where
  anchorStart : Bool
  atoms : List RAtom
  anchorEnd : Bool
deriving DecidableEq

/-- Parse a pattern string into the modelled fragment: a leading `^` and
a trailing `$` act as anchors, the body may hold literals and `.`.
Patterns outside the fragment yield `none`. -/
def parseSimpleRegex (pattern : String) : Option SimpleRegex :=
  let cs := pattern.toList
  let aStart : Bool := cs.head? = some '^'
  let cs1 := if cs.head? = some '^' then cs.tail else cs
  let aEnd : Bool := cs1.getLast? = some '$'
  let cs2 := if cs1.getLast? = some '$' then cs1.dropLast else cs1
  (parseAtoms cs2).map (fun as => ⟨aStart, as, aEnd⟩)

/-- Single-character matching; with the `i` option characters compare
case-insensitively, and `.` matches anything but a newline (PCRE
default, no `s` option). -/
def atomMatches (ci : Bool) : RAtom → Char → Bool
  | .lit c, x => if ci then c.toLower = x.toLower else c = x
  | .dot, x => x ≠ '\n'

/-- Match the atom sequence against a prefix of `s`; when `anchorEnd` is
set the match must consume all of `s`. -/
def atomsMatchAt (ci anchorEnd : Bool) : List RAtom → List Char → Bool
  | [], s => if anchorEnd then s.isEmpty else true
  | _ :: _, [] => false
  | a :: as, x :: xs => atomMatches ci a x && atomsMatchAt ci anchorEnd as xs

/-- Unanchored regex search: try to match at every start position. -/
def regexSearchFrom (ci anchorEnd : Bool) (as : List RAtom) :
    List Char → Bool
  | [] => atomsMatchAt ci anchorEnd as []
  | x :: xs => atomsMatchAt ci anchorEnd as (x :: xs) || regexSearchFrom ci anchorEnd as xs

/-- Acceptance of the modelled regex fragment on a character list. -/
def regexAccepts (r : SimpleRegex) (ci : Bool) (s : List Char) : Bool :=
  if r.anchorStart then atomsMatchAt ci r.anchorEnd r.atoms s
  else regexSearchFrom ci r.anchorEnd r.atoms s

/-- MongoDB `$regex` matching (with optional `i` option), modelled on
the documented PCRE semantics of the fragment above.  Patterns outside
the fragment are mapped to no-match; no theorem below depends on a
pattern outside the fragment. -/
def mongoRegexMatch (pattern : String) (ci : Bool) (s : String) : Bool :=
  match parseSimpleRegex pattern with
  | some r => regexAccepts r ci s.toList
  | none => false

/-- Case-insensitive prefix test between character lists. -/
def isPrefixCI : List Char → List Char → Bool
  | [], _ => true
  | _ :: _, [] => false
  | c :: cs, x :: xs => (c.toLower = x.toLower) && isPrefixCI cs xs

/-- Case-insensitive substring containment between character lists. -/
def containsCI (p : List Char) : List Char → Bool
  | [] => isPrefixCI p []
  | x :: xs => isPrefixCI p (x :: xs) || containsCI p xs

/-- The specification-side notion for the title filter: `pat` occurs as
a case-insensitive literal substring of `s`. -/
def substrCI (pat s : String) : Bool := containsCI pat.toList s.toList

/-- A BSON scalar as far as the claims need it: a number, a string, or
null. -/
inductive Bson where
  | num : ℚ → Bson
  | str : String → Bson
  | null : Bson
deriving DecidableEq

/-- A document of the `movies` collection, restricted to the fields the
queries of src/movie-mcp.py can mention.  Every field is optional
(absent models a missing BSON field). -/
structure MovieDoc where
  title : Option String := none
  genres : Option (List String) := none
  cast : Option (List String) := none
  directors : Option (List String) := none
  writers : Option (List String) := none
  year : Option Int := none
  rated : Option String := none
  imdbRating : Option Bson := none
  imdbVotes : Option Bson := none
  metacritic : Option Bson := none
  tomatoesViewerRating : Option Bson := none
  tomatoesCriticRating : Option Bson := none
  tomatoesViewerNumReviews : Option Bson := none
  tomatoesCriticNumReviews : Option Bson := none
deriving DecidableEq

/-- Dotted-path field access on a document, as a BSON scalar view
(fields the code never sorts or aggregates on resolve to missing). -/
def getField (d : MovieDoc) : String → Option Bson
  | "title" => d.title.map Bson.str
  | "year" => d.year.map (fun y => Bson.num y)
  | "rated" => d.rated.map Bson.str
  | "imdb.rating" => d.imdbRating
  | "imdb.votes" => d.imdbVotes
  | "metacritic" => d.metacritic
  | "tomatoes.viewer.rating" => d.tomatoesViewerRating
  | "tomatoes.critic.rating" => d.tomatoesCriticRating
  | "tomatoes.viewer.numReviews" => d.tomatoesViewerNumReviews
  | "tomatoes.critic.numReviews" => d.tomatoesCriticNumReviews
  | _ => none

/-- Array-valued field access, for the `$all` and name-regex clauses. -/
def getArrayField (d : MovieDoc) : String → Option (List String)
  | "genres" => d.genres
  | "cast" => d.cast
  | "directors" => d.directors
  | "writers" => d.writers
  | _ => none

/-- A `$regex` clause with its `$options` (the code always passes "i"). -/
structure RegexCond where
  pattern : String
  caseInsensitive : Bool
deriving DecidableEq

/-- The year clause: either `year: y` or `year: {$gte?, $lte?}`. -/
inductive YearCond where
  | exact : Int → YearCond
  | range : Option Int → Option Int → YearCond
deriving DecidableEq

/-- The query dictionary `_build_movie_query` can construct, one
component per key the Python code can create.  An absent component is
an absent dictionary key. -/
structure MovieQuery where
  title : Option RegexCond := none
  genres : Option (List String) := none
  andClauses : List (String × RegexCond) := []
  year : Option YearCond := none
  imdbRating : Option ℚ := none
  metacritic : Option Int := none
  tomatoesViewerRating : Option ℚ := none
  tomatoesCriticRating : Option ℚ := none
  rated : Option RegexCond := none
deriving DecidableEq

/-- The keyword arguments of `_build_movie_query`, with its Python
defaults. -/
structure BuildArgs where
  title : Option String := none
  genres : Option (List String) := none
  actors : Option (List String) := none
  directors : Option (List String) := none
  writers : Option (List String) := none
  year : Option Int := none
  start_year : Option Int := none
  end_year : Option Int := none
  min_imdb_rating : Option ℚ := none
  min_metacritic_rating : Option Int := none
  min_tomatoes_viewer_rating : Option ℚ := none
  min_tomatoes_critic_rating : Option ℚ := none
  rated_mpaa : Option String := none

/-- The `$and` clauses contributed by one of the name filters: one
case-insensitive regex clause per name, guarded by Python truthiness of
the list. -/
def nameClauses (field : String) (l : Option (List String)) :
    List (String × RegexCond) :=
  if pyTruthyList l then (l.getD []).map (fun n => (field, RegexCond.mk n true))
  else []

/-- The filter builder `_build_movie_query` from src/movie-mcp.py: each clause is added
exactly when its argument is truthy (`year`/`start_year`/`end_year` use
`is not None`), the exact year takes precedence over the range, and the
`rated` clause anchors its pattern with `^`/`$`. -/
def _build_movie_query (b : BuildArgs) : MovieQuery :=
  { title :=
      if pyTruthyStr b.title then some ⟨b.title.getD "", true⟩ else none
    genres :=
      if pyTruthyList b.genres then some (b.genres.getD []) else none
    andClauses :=
      nameClauses "cast" b.actors ++ nameClauses "directors" b.directors ++
        nameClauses "writers" b.writers
    year :=
      match b.year with
      | some y => some (.exact y)
      | none =>
        if b.start_year.isSome || b.end_year.isSome then
          some (.range b.start_year b.end_year)
        else none
    imdbRating := b.min_imdb_rating
    metacritic := b.min_metacritic_rating
    tomatoesViewerRating := b.min_tomatoes_viewer_rating
    tomatoesCriticRating := b.min_tomatoes_critic_rating
    rated :=
      if pyTruthyStr b.rated_mpaa then
        some ⟨"^" ++ b.rated_mpaa.getD "" ++ "$", true⟩
      else none }

/-- Semantics of a `$regex` clause on a scalar string field: a missing
field never matches. -/
def regexCondMatches (rc : RegexCond) (v : Option String) : Bool :=
  match v with
  | some s => mongoRegexMatch rc.pattern rc.caseInsensitive s
  | none => false

/-- Semantics of a `$regex` clause on an array field: some element
matches; a missing field never matches. -/
def regexCondMatchesArr (rc : RegexCond) (v : Option (List String)) : Bool :=
  match v with
  | some arr => arr.any (fun s => mongoRegexMatch rc.pattern rc.caseInsensitive s)
  | none => false

/-- Semantics of `{$all: gs}` on an array field: every listed value is
an element.  MongoDB documents that `$all` with an empty array matches
no document; a missing field never matches. -/
def allCondMatches (gs : List String) (v : Option (List String)) : Bool :=
  match v with
  | some arr => !gs.isEmpty && gs.all (fun g => arr.contains g)
  | none => false

/-- Semantics of the year clause; `$gte`/`$lte` are inclusive and a
missing field never matches. -/
def yearCondMatches : YearCond → Option Int → Bool
  | .exact y, some v => v = y
  | .exact _, none => false
  | .range lo hi, some v =>
    lo.all (fun s => s ≤ v) && hi.all (fun e => v ≤ e)
  | .range _ _, none => false

/-- Semantics of `{$gte: t, $exists: true}` on a numeric field: the
field exists, holds a number, and that number is at least `t` (BSON
type bracketing: a string or null is never `$gte` a number). -/
def gteNumCondMatches (t : ℚ) (v : Option Bson) : Bool :=
  match v with
  | some (.num p) => t ≤ p
  | _ => false

/-- Whether a document matches every clause of a `MovieQuery`
(MongoDB's implicit conjunction across dictionary keys, and `$and`
across the name clauses). -/
def matchesQuery (q : MovieQuery) (d : MovieDoc) : Bool :=
  q.title.all (fun rc => regexCondMatches rc d.title) &&
  q.genres.all (fun gs => allCondMatches gs d.genres) &&
  q.andClauses.all (fun pr => regexCondMatchesArr pr.2 (getArrayField d pr.1)) &&
  q.year.all (fun yc => yearCondMatches yc d.year) &&
  q.imdbRating.all (fun t => gteNumCondMatches t d.imdbRating) &&
  q.metacritic.all (fun t => gteNumCondMatches (t : ℚ) d.metacritic) &&
  q.tomatoesViewerRating.all (fun t => gteNumCondMatches t d.tomatoesViewerRating) &&
  q.tomatoesCriticRating.all (fun t => gteNumCondMatches t d.tomatoesCriticRating) &&
  q.rated.all (fun rc => regexCondMatches rc d.rated)

/-- BSON sort comparison on scalar field views: missing and null sort
together below numbers, which sort below strings (MongoDB's type
bracketing for sorts). -/
def bsonRank : Option Bson → Nat
  | none => 0
  | some .null => 0
  | some (.num _) => 1
  | some (.str _) => 2

/-- Total "less or equal" on optional BSON scalars, used as the sort
relation. -/
def bsonLE (a b : Option Bson) : Bool :=
  match a, b with
  | some (.num p), some (.num q) => p ≤ q
  | some (.str s), some (.str t) => s ≤ t
  | x, y => bsonRank x ≤ bsonRank y

/-- Insert an element into a list, before the first element it compares
less-or-equal to. -/
def insertLE {α : Type} (le : α → α → Bool) (x : α) : List α → List α
  | [] => [x]
  | y :: ys => if le x y then x :: y :: ys else y :: insertLE le x ys

/-- Insertion sort by a Boolean comparator. -/
def sortByLE {α : Type} (le : α → α → Bool) : List α → List α
  | [] => []
  | x :: xs => insertLE le x (sortByLE le xs)

/-- MongoDB's single-key sort: reorder by the field's value, ascending
or descending.  The store pins no tie order for equal keys, so any
comparator-respecting reordering is a faithful model; we use insertion
sort. -/
def mongoSort (field : String) (asc : Bool) (docs : List MovieDoc) :
    List MovieDoc :=
  sortByLE (fun a b =>
    if asc then bsonLE (getField a field) (getField b field)
    else bsonLE (getField b field) (getField a field)) docs

/-- The keyword arguments of the `find_movies` tool, with its Python
defaults.  The list-like filters arrive as arbitrary Python values
(the tool's callers are unreliable about types). -/
structure FindArgs where
  title : Option String := none
  genres : PyVal := .none
  actors : PyVal := .none
  directors : PyVal := .none
  writers : PyVal := .none
  year : Option Int := none
  start_year : Option Int := none
  end_year : Option Int := none
  min_imdb_rating : Option ℚ := none
  min_metacritic_rating : Option Int := none
  min_tomatoes_viewer_rating : Option ℚ := none
  min_tomatoes_critic_rating : Option ℚ := none
  rated_mpaa : Option String := none
  sort_by : Option String := some "imdb.rating"
  sort_order_asc : Bool := false
  limit : Int := 10
  projection_fields : Option (List String) := none

/-- What one `find_movies` call hands to the store and gets back: the
filter, the projection dictionary, and the resulting documents
(after sort and limit; projection application is the store's job). -/
structure FindOutcome where
  query : MovieQuery
  projection : List (String × Int)
  results : List MovieDoc
deriving DecidableEq

/-- The filter `find_movies` builds: its list-like arguments are first
normalized, then every filter argument is handed to
`_build_movie_query`. -/
def findQuery (jsonLoads : String → Option PyVal) (a : FindArgs) : MovieQuery :=
  _build_movie_query
    { title := a.title
      genres := _parse_stringified_list_arg jsonLoads a.genres
      actors := _parse_stringified_list_arg jsonLoads a.actors
      directors := _parse_stringified_list_arg jsonLoads a.directors
      writers := _parse_stringified_list_arg jsonLoads a.writers
      year := a.year
      start_year := a.start_year
      end_year := a.end_year
      min_imdb_rating := a.min_imdb_rating
      min_metacritic_rating := a.min_metacritic_rating
      min_tomatoes_viewer_rating := a.min_tomatoes_viewer_rating
      min_tomatoes_critic_rating := a.min_tomatoes_critic_rating
      rated_mpaa := a.rated_mpaa }

/-- The sort step of `find_movies`: applied only when `sort_by` is
truthy, resolving short keys through `RATING_FIELD_MAP` with the
unmapped key used verbatim. -/
def findSorted (a : FindArgs) (matched : List MovieDoc) : List MovieDoc :=
  if pyTruthyStr a.sort_by then
    mongoSort ((mapLookup (a.sort_by.getD "") RATING_FIELD_MAP).getD
      (a.sort_by.getD "")) a.sort_order_asc matched
  else matched

/-- The tool `find_movies` from src/movie-mcp.py over a store modelled as a list
of documents: normalize the list-like arguments, build the filter,
resolve the projection, then filter, sort, and truncate only when
`limit > 0` (`cursor.limit` is never called otherwise).  The Python
`try`/`except` around the store round trip is outside the model (the
modelled store is pure). -/
def find_movies (jsonLoads : String → Option PyVal) (docs : List MovieDoc)
    (a : FindArgs) : FindOutcome :=
  let q := findQuery jsonLoads a
  let final_projection := resolveProjection a.projection_fields
  let matched := docs.filter (matchesQuery q)
  let sorted := findSorted a matched
  let limited := if 0 < a.limit then sorted.take a.limit.toNat else sorted
  { query := q, projection := final_projection, results := limited }

/-- The keyword arguments of the `get_average_rating` tool, with its
Python defaults (the rating key is separate and required). -/
structure AvgArgs where
  genres : PyVal := .none
  actors : PyVal := .none
  directors : PyVal := .none
  writers : PyVal := .none
  year : Option Int := none
  start_year : Option Int := none
  end_year : Option Int := none

/-- The `$match` query of the averaging pipeline: the user-filter query
plus the mandatory `{$exists: true, $type: "number"}` clause on the
resolved rating field (that field never collides with a key of the
base query, so the added dictionary entry is a separate clause). -/
structure AvgMatchQuery where
  base : MovieQuery
  ratingField : String
deriving DecidableEq

/-- The two-stage aggregation pipeline `get_average_rating` executes:
`$match` then a single `$group` taking `$avg` of the rating field and
`$sum: 1`. -/
structure AvgPipeline where
  matchQuery : AvgMatchQuery
  avgField : String
deriving DecidableEq

/-- One row of the `$group` stage's output. -/
structure GroupRow where
  averageRating : Option ℚ
  movieCount : Int
deriving DecidableEq

/-- The result dictionary of `get_average_rating`; `error := none`
models the absence of the "error" key. -/
structure AvgResult where
  average_rating : Option ℚ
  movie_count : Int
  error : Option String := none
deriving DecidableEq

/-- Python `round(x, 2)` (round half to even at two decimals), modelled
on rationals. -/
def roundHalfEven (q : ℚ) : ℤ :=
  let f := ⌊q⌋
  let r := q - f
  if r < 1 / 2 then f
  else if 1 / 2 < r then f + 1
  else if f % 2 = 0 then f else f + 1

/-- Round a rational to two decimal places, Python-`round` style. -/
def round2 (q : ℚ) : ℚ := (roundHalfEven (q * 100) : ℚ) / 100

/-- The reduced filter set `get_average_rating` hands to
`_build_movie_query` (no title, minimum-rating or MPAA filters), after
normalizing the list-like arguments. -/
def avgBuildArgs (jsonLoads : String → Option PyVal) (a : AvgArgs) :
    BuildArgs :=
  { genres := _parse_stringified_list_arg jsonLoads a.genres
    actors := _parse_stringified_list_arg jsonLoads a.actors
    directors := _parse_stringified_list_arg jsonLoads a.directors
    writers := _parse_stringified_list_arg jsonLoads a.writers
    year := a.year
    start_year := a.start_year
    end_year := a.end_year }

/-- The aggregation pipeline `get_average_rating` builds for the
resolved rating field `f`: the user-filter match query plus the
mandatory exists-and-numeric clause on `f`, then the single average
group over `f`. -/
def avgPipeline (jsonLoads : String → Option PyVal) (a : AvgArgs)
    (f : String) : AvgPipeline :=
  { matchQuery := { base := _build_movie_query (avgBuildArgs jsonLoads a)
                    ratingField := f }
    avgField := f }

/-- The tool `get_average_rating` from src/movie-mcp.py, parameterized by the
store's aggregation oracle `exec` (`Except.error` models a raised store
exception).  Returns the tool's result together with the list of
pipelines handed to the store, in order: an invalid rating key returns
`none` with an empty list, i.e. before any store operation. -/
def get_average_rating (jsonLoads : String → Option PyVal)
    (exec : AvgPipeline → Except String (List GroupRow))
    (rating_field_key : String) (a : AvgArgs) :
    Option AvgResult × List AvgPipeline :=
  let db_rating_field := mapLookup rating_field_key RATING_FIELD_MAP
  if db_rating_field.getD "" = "" then (none, [])
  else
    let pipeline := avgPipeline jsonLoads a (db_rating_field.getD "")
    match exec pipeline with
    | .ok result =>
      (some (match result with
        | [] => { average_rating := none, movie_count := 0, error := none }
        | r :: _ =>
          if 0 < r.movieCount then
            { average_rating := r.averageRating.map round2
              movie_count := r.movieCount
              error := none }
          else { average_rating := none, movie_count := 0, error := none }),
       [pipeline])
    | .error e =>
      (some { average_rating := none, movie_count := 0, error := some e },
       [pipeline])

/-- Whether a document's field (dotted path) exists and holds a BSON
number: the semantics of `{$exists: true, $type: "number"}`. -/
def fieldIsNumber (d : MovieDoc) (f : String) : Bool :=
  match getField d f with
  | some (.num _) => true
  | _ => false

/-- Whether a document passes the averaging pipeline's `$match` stage. -/
def matchesAvgQuery (mq : AvgMatchQuery) (d : MovieDoc) : Bool :=
  matchesQuery mq.base d && fieldIsNumber d mq.ratingField

/-- The numeric value of an optional BSON scalar, if any. -/
def numValue : Option Bson → Option ℚ
  | some (.num q) => some q
  | _ => none

/-- MongoDB's execution of the averaging pipeline on a store modelled
as a list of documents: `$match` filters, then a single `$group` over
all matched documents produces no row when nothing matched, else one
row with the `$avg` of the numeric values of the field (skipping
non-numeric values, as `$avg` does) and the `$sum: 1` count. -/
def runAggregate (docs : List MovieDoc) (p : AvgPipeline) :
    Except String (List GroupRow) :=
  let matched := docs.filter (matchesAvgQuery p.matchQuery)
  match matched with
  | [] => .ok []
  | _ =>
    let vals := matched.filterMap (fun d => numValue (getField d p.avgField))
    .ok [{ averageRating :=
             if vals.isEmpty then none else some (vals.sum / vals.length)
           movieCount := matched.length }]

/-- Parsing a body with no metacharacters yields exactly the literal
atoms. -/
theorem parseAtoms_noMeta (cs : List Char) (h : ∀ c ∈ cs, c ∉ regexMetaChars) :
    parseAtoms cs = some (cs.map RAtom.lit) := by
  induction cs with
  | nil => rfl
  | cons c cs ih =>
    have hc : c ∉ regexMetaChars := h c (List.mem_cons_self c cs)
    have hdot : ¬c = '.' := by
      intro e
      exact hc (by rw [e]; decide)
    rw [parseAtoms, if_neg hdot, if_neg hc,
      ih (fun x hx => h x (List.mem_cons_of_mem _ hx))]
    rfl

/-- On literal atoms, anchor-free prefix matching with the `i` option
is the case-insensitive prefix test. -/
theorem atomsMatchAt_lit (cs : List Char) :
    ∀ s : List Char,
      atomsMatchAt true false (cs.map RAtom.lit) s = isPrefixCI cs s := by
  induction cs with
  | nil => intro s; rfl
  | cons c cs ih =>
    intro s
    cases s with
    | nil => rfl
    | cons x xs => simp [atomsMatchAt, isPrefixCI, atomMatches, ih]

/-- On literal atoms, anchor-free search with the `i` option is the
case-insensitive substring test. -/
theorem regexSearchFrom_lit (cs : List Char) (s : List Char) :
    regexSearchFrom true false (cs.map RAtom.lit) s = containsCI cs s := by
  induction s with
  | nil => simp [regexSearchFrom, containsCI, atomsMatchAt_lit]
  | cons x xs ih => simp [regexSearchFrom, containsCI, atomsMatchAt_lit, ih]

/-- A pattern with no metacharacters parses to anchor-free literal
atoms. -/
theorem parseSimpleRegex_noMeta (p : String)
    (h : ∀ c ∈ p.toList, c ∉ regexMetaChars) :
    parseSimpleRegex p = some ⟨false, p.toList.map RAtom.lit, false⟩ := by
  have hhead : ¬p.toList.head? = some '^' := by
    cases hc : p.toList with
    | nil => simp
    | cons c rest =>
      simp only [List.head?]
      intro e
      injection e with e
      exact h c (by rw [hc]; exact List.mem_cons_self _ _) (by rw [e]; decide)
  have hlast : ¬p.toList.getLast? = some '$' := by
    intro e
    have hmem : '$' ∈ p.toList := by
      obtain ⟨hne, hx⟩ := List.mem_getLast?_eq_getLast (Option.mem_def.mpr e)
      rw [hx]
      exact List.getLast_mem hne
    exact h _ hmem (by decide)
  simp only [parseSimpleRegex]
  simp only [if_neg hhead]
  simp only [if_neg hlast]
  rw [parseAtoms_noMeta _ h]
  rw [decide_eq_false hhead, decide_eq_false hlast]
  rfl

/-- For a non-metacharacter pattern, MongoDB case-insensitive `$regex`
matching is exactly case-insensitive literal substring containment. -/
theorem mongoRegexMatch_noMeta (p s : String)
    (h : ∀ c ∈ p.toList, c ∉ regexMetaChars) :
    mongoRegexMatch p true s = substrCI p s := by
  rw [mongoRegexMatch, parseSimpleRegex_noMeta p h]
  simp [regexAccepts, substrCI, regexSearchFrom_lit]

/-- C1: the claim as stated is false on the code.  The title argument
"." is non-null and non-empty, and the filter `_build_movie_query`
builds from it matches the document with title "X" even though "." does
not occur as a case-insensitive literal substring of "X" (the title is
passed to `$regex` unescaped, so "." matches any character). -/
theorem C1_counterexample :
    matchesQuery (_build_movie_query { title := some "." })
        { title := some "X" } = true
    ∧ substrCI "." "X" = false := by
  exact ⟨by decide, by decide⟩

/-- C1 (amended): for every non-null, non-empty title argument that
contains no regex metacharacter, the filter built by
`_build_movie_query` from the title alone matches a document exactly
when the supplied title occurs as a case-insensitive literal substring
of the document's title field (a document without a title field never
matches); titles containing metacharacters are interpreted as regular
expressions instead. -/
theorem C1_title_substring (title : String) (d : MovieDoc)
    (hne : title ≠ "") (hmeta : ∀ c ∈ title.toList, c ∉ regexMetaChars) :
    matchesQuery (_build_movie_query { title := some title }) d
      = (d.title.map (fun t => substrCI title t)).getD false := by
  cases ht : d.title with
  | none =>
    simp [matchesQuery, _build_movie_query, nameClauses, pyTruthyStr,
      pyTruthyList, hne, regexCondMatches, ht]
  | some t =>
    simp [matchesQuery, _build_movie_query, nameClauses, pyTruthyStr,
      pyTruthyList, hne, regexCondMatches, ht,
      mongoRegexMatch_noMeta title t hmeta]

/-- C1 witness: the amended theorem evaluated at the title "Alien" and
a document titled "ALIENS vs X". -/
theorem C1_title_substring_witness :
    matchesQuery (_build_movie_query { title := some "Alien" })
        { title := some "ALIENS vs X" }
      = (((({ title := some "ALIENS vs X" } : MovieDoc)).title.map
          (fun t => substrCI "Alien" t)).getD false) :=
  C1_title_substring "Alien" { title := some "ALIENS vs X" } (by decide)
    (by decide)

/-- C5: in `_build_movie_query`, a supplied exact year makes the whole
built filter independent of any supplied bounds and constrains year to
exactly that value; with no exact year and at least one bound, the
filter carries the inclusive range clause over exactly the supplied
bounds; with neither, the filter has no year clause. -/
theorem C5_year_precedence (b : BuildArgs) :
    (∀ y : Int,
      _build_movie_query { b with year := some y }
        = _build_movie_query
            { b with year := some y, start_year := none, end_year := none }
      ∧ (_build_movie_query { b with year := some y }).year
          = some (YearCond.exact y)
      ∧ ∀ v : Int, yearCondMatches (YearCond.exact y) (some v) = decide (v = y))
    ∧ (b.year = none → (b.start_year.isSome ∨ b.end_year.isSome) →
      (_build_movie_query b).year
          = some (YearCond.range b.start_year b.end_year)
      ∧ ∀ v : Int,
          yearCondMatches (YearCond.range b.start_year b.end_year) (some v)
            = (b.start_year.all (fun s => decide (s ≤ v))
                && b.end_year.all (fun e => decide (v ≤ e))))
    ∧ (b.year = none → b.start_year = none → b.end_year = none →
      (_build_movie_query b).year = none) := by
  refine ⟨fun y => ⟨rfl, rfl, fun v => rfl⟩, fun h1 h2 => ⟨?_, fun v => rfl⟩,
    fun h1 h2 h3 => ?_⟩
  · have hb : (b.start_year.isSome || b.end_year.isSome) = true := by
      rcases h2 with h | h <;> simp [h]
    simp [_build_movie_query, h1, hb]
  · simp [_build_movie_query, h1, h2, h3]

/-- C5 witness: the three cases at concrete years and bounds. -/
theorem C5_year_precedence_witness :
    _build_movie_query
        { year := some 1985, start_year := some 1990, end_year := some 1999 }
      = _build_movie_query { year := some 1985 }
    ∧ (_build_movie_query { start_year := some 1990, end_year := some 1999 }).year
        = some (YearCond.range (some 1990) (some 1999))
    ∧ (_build_movie_query {}).year = none := by
  refine ⟨?_, ?_, ?_⟩
  · exact ((C5_year_precedence
      { year := some 1985, start_year := some 1990, end_year := some 1999 }).1
        1985).1
  · exact ((C5_year_precedence
      { start_year := some 1990, end_year := some 1999 }).2.1 rfl
        (Or.inl rfl)).1
  · exact (C5_year_precedence {}).2.2 rfl rfl rfl

/-- C6: for every non-blank string argument on which the JSON parse
fails, `_parse_stringified_list_arg` returns the single-element list
holding exactly that string (and, being a total function, it cannot
raise). -/
theorem C6_single_item_fallback (jsonLoads : String → Option PyVal)
    (s : String) (hb : pyStripIsEmpty s = false) (hj : jsonLoads s = none) :
    _parse_stringified_list_arg jsonLoads (.str s) = some [s] := by
  simp [_parse_stringified_list_arg, hb, hj]

/-- C6 witness: the normalizer on "Bill Murray" with a failing JSON
parse. -/
theorem C6_single_item_fallback_witness :
    _parse_stringified_list_arg (fun _ => none) (.str "Bill Murray")
      = some ["Bill Murray"] :=
  C6_single_item_fallback (fun _ => none) "Bill Murray" (by decide) rfl

/-- Normalizing a reflected normalizer output recovers it: the `None`
result maps to `None`, and a list of strings is passed through the
list branch unchanged. -/
theorem strItems_map_str (xs : List String) :
    strItems (xs.map PyVal.str) = xs := by
  induction xs with
  | nil => rfl
  | cons x xs ih =>
    simp only [List.map_cons, strItems, List.filter_cons] at ih ⊢
    simpa [PyVal.isNone, pyStr] using ih

/-- C9: the argument normalizer is idempotent — feeding its own result
back in (as `None` or as a Python list of strings) returns that result
unchanged, for every JSON-parse oracle and every input, with order
preserved. -/
theorem C9_normalizer_idempotent (jsonLoads : String → Option PyVal)
    (arg : PyVal) :
    _parse_stringified_list_arg jsonLoads
        (normalizedToPyVal (_parse_stringified_list_arg jsonLoads arg))
      = _parse_stringified_list_arg jsonLoads arg := by
  rcases h : _parse_stringified_list_arg jsonLoads arg with _ | xs
  · rfl
  · show _parse_stringified_list_arg jsonLoads (.list (xs.map .str)) = some xs
    simp [_parse_stringified_list_arg, strItems_map_str]

/-- A successful `RATING_FIELD_MAP` lookup yields one of the map's
values. -/
theorem mapLookup_mem_values (k v : String) (m : List (String × String))
    (h : mapLookup k m = some v) : v ∈ m.map Prod.snd := by
  induction m with
  | nil => simp [mapLookup] at h
  | cons p rest ih =>
    obtain ⟨k', v'⟩ := p
    rw [mapLookup] at h
    by_cases hk : k' = k
    · rw [if_pos hk] at h
      injection h with h
      simp [h]
    · rw [if_neg hk] at h
      simp [ih h]

/-- Every value of `RATING_FIELD_MAP` is a non-empty field path, so a
successful lookup is Python-truthy. -/
theorem ratingField_ne_empty (k f : String)
    (h : mapLookup k RATING_FIELD_MAP = some f) : f ≠ "" := by
  intro e
  subst e
  exact absurd (mapLookup_mem_values _ _ _ h) (by decide)

/-- C2: for every rating key missing from `RATING_FIELD_MAP`,
`get_average_rating` returns `None` — not a result dictionary — with an
empty store-operation log, i.e. before executing any store operation,
for every store oracle and all other filter arguments. -/
theorem C2_invalid_key (jsonLoads : String → Option PyVal)
    (exec : AvgPipeline → Except String (List GroupRow))
    (key : String) (a : AvgArgs)
    (hk : mapLookup key RATING_FIELD_MAP = none) :
    get_average_rating jsonLoads exec key a = (none, []) := by
  simp [get_average_rating, hk]

/-- C2 witness: the invalid key "not_a_real_key" with a store oracle
that would report a match. -/
theorem C2_invalid_key_witness :
    get_average_rating (fun _ => none)
        (fun _ => Except.ok [{ averageRating := some 5, movieCount := 3 }])
        "not_a_real_key" {} = (none, []) :=
  C2_invalid_key _ _ _ _ (by decide)

/-- C3: with a valid rating key, a store round trip that yields no
aggregation row (zero contributing documents) produces the dictionary
with null average, zero count and no error field, while a store round
trip that raises produces null average, zero count and the error
description — so the two are distinguishable only by the error field. -/
theorem C3_zero_vs_error (jsonLoads : String → Option PyVal)
    (key f : String) (a : AvgArgs) (e : String)
    (hf : mapLookup key RATING_FIELD_MAP = some f) :
    (get_average_rating jsonLoads (fun _ => Except.ok []) key a).fst
        = some { average_rating := none, movie_count := 0, error := none }
    ∧ (get_average_rating jsonLoads (fun _ => Except.error e) key a).fst
        = some { average_rating := none, movie_count := 0, error := some e } := by
  have hne : f ≠ "" := ratingField_ne_empty _ _ hf
  constructor <;> simp [get_average_rating, hf, hne]

/-- C3 witness: the key "imdb" with no matching documents, and with a
store failure "store unavailable". -/
theorem C3_zero_vs_error_witness :
    (get_average_rating (fun _ => none) (fun _ => Except.ok []) "imdb" {}).fst
        = some { average_rating := none, movie_count := 0, error := none }
    ∧ (get_average_rating (fun _ => none)
        (fun _ => Except.error "store unavailable") "imdb" {}).fst
        = some { average_rating := none, movie_count := 0,
                 error := some "store unavailable" } :=
  C3_zero_vs_error (fun _ => none) "imdb" "imdb.rating" {} "store unavailable"
    (by decide)

/-- Looking up the key just written into a dict finds the new value. -/
theorem dictLookup_dictInsert_self (k : String) (v : Int)
    (d : List (String × Int)) : dictLookup k (dictInsert k v d) = some v := by
  induction d with
  | nil => simp [dictInsert, dictLookup]
  | cons p rest ih =>
    obtain ⟨k', v'⟩ := p
    rw [dictInsert]
    by_cases hk : k' = k
    · rw [if_pos hk, dictLookup, if_pos rfl]
    · rw [if_neg hk, dictLookup, if_neg hk, ih]

/-- Writing one key into a dict leaves lookups of other keys alone. -/
theorem dictLookup_dictInsert_ne (k' k : String) (v : Int)
    (d : List (String × Int)) (hne : k' ≠ k) :
    dictLookup k' (dictInsert k v d) = dictLookup k' d := by
  have hne' : ¬k = k' := fun e => hne e.symm
  induction d with
  | nil => simp [dictInsert, dictLookup, hne']
  | cons p rest ih =>
    obtain ⟨k0, v0⟩ := p
    rw [dictInsert]
    by_cases hk : k0 = k
    · subst hk
      rw [if_pos rfl, dictLookup, if_neg hne', dictLookup, if_neg hne']
    · rw [if_neg hk, dictLookup, dictLookup]
      by_cases h0 : k0 = k'
      · rw [if_pos h0, if_pos h0]
      · rw [if_neg h0, if_neg h0, ih]

/-- Lookup after the dict comprehension over an accumulator. -/
theorem dictLookup_foldl_dictInsert (v : Int) (fs : List String) :
    ∀ (d : List (String × Int)) (k : String),
      dictLookup k (fs.foldl (fun d f => dictInsert f v d) d)
        = if k ∈ fs then some v else dictLookup k d := by
  induction fs with
  | nil => intro d k; simp
  | cons f fs ih =>
    intro d k
    rw [List.foldl_cons, ih]
    by_cases hk : k ∈ fs
    · rw [if_pos hk, if_pos (List.mem_cons_of_mem _ hk)]
    · rw [if_neg hk]
      by_cases hkf : k = f
      · subst hkf
        rw [dictLookup_dictInsert_self, if_pos (List.mem_cons_self _ _)]
      · rw [dictLookup_dictInsert_ne _ _ _ _ hkf,
          if_neg (by simp [hkf, hk])]

/-- Lookup in the dict comprehension `\x7bfield: v for field in fs\x7d`. -/
theorem dictLookup_dictOfKeys (v : Int) (fs : List String) (k : String) :
    dictLookup k (dictOfKeys fs v) = if k ∈ fs then some v else none := by
  rw [dictOfKeys, dictLookup_foldl_dictInsert]
  rfl

/-- Writing into a dict never empties it. -/
theorem dictInsert_ne_nil (k : String) (v : Int) (d : List (String × Int)) :
    dictInsert k v d ≠ [] := by
  cases d with
  | nil => simp [dictInsert]
  | cons p rest =>
    obtain ⟨k', v'⟩ := p
    rw [dictInsert]
    by_cases hk : k' = k
    · simp [hk]
    · simp [hk]

/-- The comprehension over at least one field is non-empty. -/
theorem dictOfKeys_ne_nil (v : Int) (fs : List String) (h : fs ≠ []) :
    dictOfKeys fs v ≠ [] := by
  cases fs with
  | nil => exact absurd rfl h
  | cons f fs =>
    rw [dictOfKeys, List.foldl_cons]
    have : ∀ (l : List String) (d : List (String × Int)), d ≠ [] →
        l.foldl (fun d f => dictInsert f v d) d ≠ [] := by
      intro l
      induction l with
      | nil => intro d hd; exact hd
      | cons x xs ih =>
        intro d _
        rw [List.foldl_cons]
        exact ih _ (dictInsert_ne_nil _ _ _)
    exact this fs _ (dictInsert_ne_nil _ _ _)

/-- The `_id` entry of the resolved projection: 1 when the caller asked
for `_id`, else the suppressing 0 — in both the user-supplied and the
default branch. -/
theorem dictLookup_resolveProjection (pf : Option (List String)) :
    dictLookup "_id" (resolveProjection pf)
      = some (if "_id" ∈ pf.getD [] then 1 else 0) := by
  by_cases hmem : "_id" ∈ pf.getD []
  · have hne : pf.getD [] ≠ [] := List.ne_nil_of_mem hmem
    have htr : pyTruthyList pf = true := by
      simp [pyTruthyList, List.isEmpty_iff, hne]
    rw [resolveProjection]
    simp only [htr, if_pos]
    rw [if_pos (by
      simp [List.isEmpty_iff, dictOfKeys_ne_nil 1 (pf.getD []) hne])]
    rw [if_neg (by simp [hmem]), dictLookup_dictOfKeys, if_pos hmem,
      if_pos hmem]
  · rw [resolveProjection]
    by_cases htr : pyTruthyList pf = true
    · have hne : pf.getD [] ≠ [] := by
        intro e
        rw [pyTruthyList, e] at htr
        simp at htr
      simp only [htr, if_pos]
      rw [if_pos (by
        simp [List.isEmpty_iff, dictOfKeys_ne_nil 1 (pf.getD []) hne])]
      rw [if_pos hmem, dictLookup_dictInsert_self, if_neg hmem]
    · have htr' : pyTruthyList pf = false := by
        cases h : pyTruthyList pf
        · rfl
        · exact absurd h htr
      simp only [htr', Bool.false_eq_true, if_neg]
      rw [if_pos (by
        simp [List.isEmpty_iff,
          dictOfKeys_ne_nil 1 DEFAULT_PROJECTION_FIELDS (by decide)])]
      rw [if_pos hmem, dictLookup_dictInsert_self, if_neg hmem]

/-- C7: the projection `find_movies` passes to the store maps `_id` to
the excluding 0 unless the caller listed `_id` in `projection_fields`
(in which case it is projected with 1), whether `projection_fields` is
supplied or the default projection set is in use. -/
theorem C7_id_suppressed (jsonLoads : String → Option PyVal)
    (docs : List MovieDoc) (a : FindArgs) :
    dictLookup "_id" (find_movies jsonLoads docs a).projection
      = some (if "_id" ∈ a.projection_fields.getD [] then 1 else 0) :=
  dictLookup_resolveProjection a.projection_fields

/-- C10: supplying an empty `projection_fields` list behaves exactly
like supplying none: the default projection set is used with `_id`
suppressed, not an empty projection. -/
theorem C10_empty_projection (jsonLoads : String → Option PyVal)
    (docs : List MovieDoc) (a : FindArgs)
    (h : a.projection_fields = some []) :
    (find_movies jsonLoads docs a).projection
        = (find_movies jsonLoads docs
            { a with projection_fields := none }).projection
    ∧ (find_movies jsonLoads docs a).projection
        = [("title", 1), ("year", 1), ("plot", 1), ("imdb.rating", 1),
           ("genres", 1), ("_id", 0)] := by
  constructor
  · show resolveProjection a.projection_fields = resolveProjection none
    rw [h]
    rfl
  · show resolveProjection a.projection_fields = _
    rw [h]
    rfl

/-- C10 witness: a concrete call with the empty projection list. -/
theorem C10_empty_projection_witness :
    (find_movies (fun _ => none) [] { projection_fields := some [] }).projection
        = (find_movies (fun _ => none) []
            { projection_fields := none }).projection
    ∧ (find_movies (fun _ => none) [] { projection_fields := some [] }).projection
        = [("title", 1), ("year", 1), ("plot", 1), ("imdb.rating", 1),
           ("genres", 1), ("_id", 0)] :=
  C10_empty_projection (fun _ => none) [] { projection_fields := some [] } rfl

/-- Inserting into a list is a permutation of consing. -/
theorem insertLE_perm {α : Type} (le : α → α → Bool) (x : α) (l : List α) :
    (insertLE le x l).Perm (x :: l) := by
  induction l with
  | nil => exact List.Perm.refl _
  | cons y ys ih =>
    rw [insertLE]
    by_cases h : le x y
    · rw [if_pos h]
    · rw [if_neg h]
      exact (ih.cons y).trans (List.Perm.swap x y ys)

/-- Sorting permutes its input. -/
theorem sortByLE_perm {α : Type} (le : α → α → Bool) (l : List α) :
    (sortByLE le l).Perm l := by
  induction l with
  | nil => exact List.Perm.refl _
  | cons x xs ih =>
    exact (insertLE_perm le x (sortByLE le xs)).trans (ih.cons x)

/-- The store's sort step returns a permutation of the matched
documents. -/
theorem findSorted_perm (a : FindArgs) (matched : List MovieDoc) :
    (findSorted a matched).Perm matched := by
  rw [findSorted]
  by_cases h : pyTruthyStr a.sort_by
  · rw [if_pos h, mongoSort]
    exact sortByLE_perm _ _
  · rw [if_neg h]

/-- C8: when the limit is zero or negative, `find_movies` returns every
matching document (no truncation, up to the store's sort order); when
the limit is positive, it returns at most that many documents. -/
theorem C8_limit (jsonLoads : String → Option PyVal) (docs : List MovieDoc)
    (a : FindArgs) :
    (a.limit ≤ 0 →
      (find_movies jsonLoads docs a).results.Perm
        (docs.filter (matchesQuery (find_movies jsonLoads docs a).query)))
    ∧ (0 < a.limit →
      ((find_movies jsonLoads docs a).results.length : Int) ≤ a.limit) := by
  constructor
  · intro h
    have h' : ¬0 < a.limit := not_lt.mpr h
    show ((if 0 < a.limit then
        (findSorted a (docs.filter (matchesQuery (findQuery jsonLoads a)))).take
          a.limit.toNat
      else
        findSorted a (docs.filter (matchesQuery (findQuery jsonLoads a))))).Perm
      (docs.filter (matchesQuery (findQuery jsonLoads a)))
    rw [if_neg h']
    exact findSorted_perm a _
  · intro h
    show ((if 0 < a.limit then
        (findSorted a (docs.filter (matchesQuery (findQuery jsonLoads a)))).take
          a.limit.toNat
      else findSorted a
        (docs.filter (matchesQuery (findQuery jsonLoads a)))).length : Int)
        ≤ a.limit
    rw [if_pos h, List.length_take]
    calc ((min a.limit.toNat _ : Nat) : Int)
        ≤ (a.limit.toNat : Int) := by exact_mod_cast min_le_left _ _
      _ = a.limit := Int.toNat_of_nonneg (le_of_lt h)

/-- C8 witness: a two-document store, once with limit 0 (both returned)
and once with limit 1 (at most one returned). -/
theorem C8_limit_witness :
    (find_movies (fun _ => none)
        [{ title := some "A" }, { title := some "B" }] { limit := 0 }).results.Perm
      ([{ title := some "A" }, { title := some "B" }].filter
        (matchesQuery (find_movies (fun _ => none)
          [{ title := some "A" }, { title := some "B" }] { limit := 0 }).query))
    ∧ ((find_movies (fun _ => none)
        [{ title := some "A" }, { title := some "B" }]
          { limit := 1 }).results.length : Int) ≤ 1 :=
  ⟨(C8_limit (fun _ => none) _ _).1 (by decide),
   (C8_limit (fun _ => none) _ _).2 (by decide)⟩

/-- Appending a document the `$match` stage rejects does not change the
aggregation result. -/
theorem runAggregate_append_nonmatching (docs : List MovieDoc) (d : MovieDoc)
    (p : AvgPipeline) (h : matchesAvgQuery p.matchQuery d = false) :
    runAggregate (docs ++ [d]) p = runAggregate docs p := by
  rw [runAggregate, runAggregate, List.filter_append]
  simp [h]

/-- C4: with a valid rating key, every pipeline `get_average_rating`
executes carries the mandatory exists-and-numeric predicate on the
resolved rating field, so a document whose rating field is absent or
non-numeric fails the `$match` stage, and adding such a document to the
store changes neither the computed average nor the contributing count
(it is excluded, not counted as zero). -/
theorem C4_rating_type_gate (jsonLoads : String → Option PyVal)
    (docs : List MovieDoc) (d : MovieDoc) (key f : String) (a : AvgArgs)
    (hf : mapLookup key RATING_FIELD_MAP = some f)
    (hd : fieldIsNumber d f = false) :
    ((get_average_rating jsonLoads (runAggregate docs) key a).snd.all
        (fun p => !matchesAvgQuery p.matchQuery d)) = true
    ∧ (get_average_rating jsonLoads (runAggregate (docs ++ [d])) key a).fst
        = (get_average_rating jsonLoads (runAggregate docs) key a).fst := by
  have hne : f ≠ "" := ratingField_ne_empty _ _ hf
  have hq : matchesAvgQuery (avgPipeline jsonLoads a f).matchQuery d = false := by
    simp [avgPipeline, matchesAvgQuery, hd]
  constructor
  · simp only [get_average_rating, hf, Option.getD_some]
    rw [if_neg hne]
    cases hx : runAggregate docs (avgPipeline jsonLoads a f) with
    | ok result => simp [hx, hq]
    | error e => simp [hx, hq]
  · simp only [get_average_rating, hf, Option.getD_some]
    rw [if_neg hne, if_neg hne,
      runAggregate_append_nonmatching _ _ _ hq]

/-- C4 witness: the key "imdb" over an empty store and a document with
no fields, whose `imdb.rating` field is therefore absent. -/
theorem C4_rating_type_gate_witness :
    ((get_average_rating (fun _ => none) (runAggregate []) "imdb"
        {}).snd.all
        (fun p => !matchesAvgQuery p.matchQuery { title := none })) = true
    ∧ (get_average_rating (fun _ => none)
          (runAggregate ([] ++ [{ title := none }])) "imdb" {}).fst
        = (get_average_rating (fun _ => none) (runAggregate []) "imdb" {}).fst :=
  C4_rating_type_gate (fun _ => none) [] { title := none } "imdb" "imdb.rating"
    {} (by decide) (by decide)
